import Mathlib

/-!
Shallow embedding of the memory and lock core of this repository:
kernel/steely/posix/memory.c (user-mappable memory regions, the memdev
registry and mapping lifecycle) and kernel/steely/lock.c (the out-of-line
lock entry points). Machine integers are modelled as Nat or Int with
explicit reductions modulo 2 ^ 32 where the C types (u32) make overflow
observable. External collaborators (host vmalloc, xnheap, rtdm dispatch)
appear as oracle parameters recording success or failure of each call, and
their observable calls are collected in explicit effect traces.
-/

namespace Steely

/-- Host page granularity (PAGE_SIZE). -/
def PAGE_SIZE : Nat := 4096

/-- Error numbers used by the sources, kept positive; the C code returns
their negations. -/
def ENOMEM : Int := 12

def EINVAL : Int := 22

def ENODEV : Int := 19

def EACCES : Int := 13

/-- State of an xnheap as visible to this file: base address, total size
and free byte count. The heap internals (free lists, block headers) belong
to the external heap capability and are out of scope. -/
structure Heap where
  membase : Nat
  size : Nat
  free : Nat
  deriving DecidableEq

/-- struct steely_umm: the delegated heap, the atomic reference count
(atomic_t, a C int, modelled as Int) and whether a release callback was
registered. -/
structure SteelyUmm where
  heap : Heap
  refcount : Int
  release : Bool
  deriving DecidableEq

/-- Observable destructive effects of steely_umm_destroy, in execution
order: xnheap_destroy, vfree of the backing block, the release callback. -/
inductive Effect where
  | destroyHeap
  | vfreeBlock
  | invokeRelease
  deriving DecidableEq

/-- steely_umm_destroy: atomic_dec_and_test on the refcount; exactly when
the decrement reaches zero it destroys the heap, returns the backing block
to the host (vfree) and invokes the release callback when one is
registered, in that order. Returns the updated region and the list of
destructive effects executed. -/
def steely_umm_destroy (umm : SteelyUmm) : SteelyUmm × List Effect :=
  let umm2 : SteelyUmm := { umm with refcount := umm.refcount - 1 }
  if umm.refcount - 1 = 0 then
    (umm2, [Effect.destroyHeap, Effect.vfreeBlock] ++
      (if umm.release then [Effect.invokeRelease] else []))
  else
    (umm2, [])

/-- umm_vmopen: the vm_operations open handler (mapping duplication), a
bare atomic_inc of the refcount. It cannot fail. -/
def umm_vmopen (umm : SteelyUmm) : SteelyUmm :=
  { umm with refcount := umm.refcount + 1 }

/-- umm_vmclose: the vm_operations close handler, delegating to
steely_umm_destroy. -/
def umm_vmclose (umm : SteelyUmm) : SteelyUmm × List Effect :=
  steely_umm_destroy umm

/-- Device minor numbers of the two umm devices. -/
def UMM_PRIVATE : Nat := 0

def UMM_SHARED : Nat := 1

/-- The memory state visible to the umm device handlers: the private umm of
the current process context when one is attached
(steely_current_process()->sys_ppd.umm), and the kernel-wide umm
(steely_kernel_ppd.umm). -/
structure MemState where
  processUmm : Option SteelyUmm
  kernelUmm : SteelyUmm
  deriving DecidableEq

/-- umm_from_fd: returns NULL when no process context is attached to the
caller; otherwise the process private umm for the private minor and the
kernel umm for any other minor. -/
def umm_from_fd (st : MemState) (minor : Nat) : Option SteelyUmm :=
  match st.processUmm with
  | none => none
  | some p => if minor = UMM_PRIVATE then some p else some st.kernelUmm

/-- Outcome of umm_mmap: success, an error code as returned by the source,
or a dereference of the NULL region pointer (no defined return value). -/
inductive MmapOutcome where
  | ok
  | err (code : Int)
  | nullDeref
  deriving DecidableEq

/-- umm_mmap. The parameter fdNull records whether the rtdm fd pointer
itself is NULL — the source tests `fd == NULL` right after resolving
`umm = umm_from_fd(fd)`, although the dispatch layer always passes a live
fd, so fdNull is false in every real invocation. When region resolution
fails and fdNull is false, the length check reads
xnheap_get_size(&umm->heap) through the NULL umm pointer; the embedding
records that as nullDeref. bindResult is the return value of the external
rtdm_mmap_vmem call (0 on success). Returns the outcome and the updated
memory state. -/
def umm_mmap (st : MemState) (fdNull : Bool) (minor : Nat) (vmaLen : Nat)
    (bindResult : Int) : MmapOutcome × MemState :=
  match umm_from_fd st minor with
  | none =>
    if fdNull then (MmapOutcome.err (-ENODEV), st)
    else (MmapOutcome.nullDeref, st)
  | some umm =>
    if fdNull then (MmapOutcome.err (-ENODEV), st)
    else if vmaLen ≠ umm.heap.size then (MmapOutcome.err (-EINVAL), st)
    else if bindResult ≠ 0 then (MmapOutcome.err bindResult, st)
    else
      let umm2 := { umm with refcount := umm.refcount + 1 }
      if minor = UMM_PRIVATE then
        (MmapOutcome.ok, { st with processUmm := some umm2 })
      else
        (MmapOutcome.ok, { st with kernelUmm := umm2 })

/-- struct steely_memdev_stat: the two-field stat record. -/
structure MemdevStat where
  size : Nat
  free : Nat
  deriving DecidableEq

/-- stat_umm: resolves the region, failing with -ENODEV when none resolves,
then reads size and free under the heap lock (one consistent snapshot). -/
def stat_umm (st : MemState) (minor : Nat) : Except Int MemdevStat :=
  match umm_from_fd st minor with
  | none => Except.error (-ENODEV)
  | some umm => Except.ok { size := umm.heap.size, free := umm.heap.free }

/-- Ioctl request codes: the stat request (MEMDEV_RTIOC_STAT) or any other
code. -/
inductive IoctlRequest where
  | stat
  | other (code : Nat)
  deriving DecidableEq

/-- do_umm_ioctls: dispatches the stat request and rejects everything else
with -EINVAL. -/
def do_umm_ioctls (st : MemState) (minor : Nat) (req : IoctlRequest) :
    Except Int MemdevStat :=
  match req with
  | IoctlRequest.stat => stat_umm st minor
  | IoctlRequest.other _ => Except.error (-EINVAL)

/-- Open-flag access-mode constants. -/
def O_RDONLY : Nat := 0

def O_ACCMODE : Nat := 3

/-- sysmem_open: rejects any open whose access mode is not read-only with
-EACCES, and succeeds otherwise. -/
def sysmem_open (oflags : Nat) : Int :=
  if oflags &&& O_ACCMODE ≠ O_RDONLY then -EACCES else 0

/-- do_sysmem_ioctls: the stat request reads size and free of the system
heap under its lock; any other request is rejected with -EINVAL. -/
def do_sysmem_ioctls (steely_heap : Heap) (req : IoctlRequest) :
    Except Int MemdevStat :=
  match req with
  | IoctlRequest.stat =>
    Except.ok { size := steely_heap.size, free := steely_heap.free }
  | IoctlRequest.other _ => Except.error (-EINVAL)

/-- The sysmem driver ops table registers only open and the two ioctl
handlers; no mmap handler is present in sysmem_driver.ops. -/
def sysmem_has_mmap_handler : Bool := false

/-- Observable calls into the host virtual-memory capability made by
steely_umm_init, in order: the request for a zero-filled block of the given
size (__vmalloc with __GFP_ZERO) and vfree of that block. -/
inductive HostEffect where
  | vmallocZeroed (size : Nat)
  | vfreeBlock
  deriving DecidableEq

/-- The assignment `size = PAGE_ALIGN(size)` on the u32 size parameter:
round up to the next PAGE_SIZE multiple, truncated to 32 bits by the store
back into the u32 variable. -/
def pageAlignU32 (size : Nat) : Nat :=
  ((size + (PAGE_SIZE - 1)) / PAGE_SIZE * PAGE_SIZE) % 2 ^ 32

/-- Modelled from the spec: xnheap_init belongs to the external heap
capability and is not part of the source tree; per the spec, heap
initialization failure surfaces as OutOfMemory, so a failing init reports
-ENOMEM. -/
def xnheap_init_result (heapInitOk : Bool) : Int :=
  if heapInitOk then 0 else -ENOMEM

/-- steely_umm_init: page-aligns the u32 size, requests a zero-filled block
of the aligned size from the host (failing with -ENOMEM when the host
cannot provide it), initializes the delegated heap over the block (on heap
init failure the block is vfreed before the error is returned), then
records the release callback and sets the refcount to 1. vmallocOk and
heapInitOk are the oracles for the two external calls. -/
def steely_umm_init (vmallocOk : Bool) (heapInitOk : Bool) (size : Nat)
    (release : Bool) : Except Int SteelyUmm × List HostEffect :=
  let psize := pageAlignU32 size
  if vmallocOk = false then
    (Except.error (-ENOMEM), [HostEffect.vmallocZeroed psize])
  else if heapInitOk = false then
    (Except.error (xnheap_init_result false),
     [HostEffect.vmallocZeroed psize, HostEffect.vfreeBlock])
  else
    (Except.ok { heap := { membase := 0, size := psize, free := psize },
                 refcount := 1, release := release },
     [HostEffect.vmallocZeroed psize])

/-- The five steps of steely_memdev_init, in program order. -/
inductive InitStep where
  | ummInit
  | vdsoAlloc
  | regPrivate
  | regShared
  | regSysmem
  deriving DecidableEq

/-- The undo actions appearing in the failure labels of steely_memdev_init
and in steely_memdev_cleanup. -/
inductive UndoStep where
  | unregSysmem
  | unregShared
  | unregPrivate
  | vdsoFree
  | ummDestroy
  deriving DecidableEq

/-- The undo action that reverses each init step. -/
def undoOf : InitStep → UndoStep
  | InitStep.ummInit => UndoStep.ummDestroy
  | InitStep.vdsoAlloc => UndoStep.vdsoFree
  | InitStep.regPrivate => UndoStep.unregPrivate
  | InitStep.regShared => UndoStep.unregShared
  | InitStep.regSysmem => UndoStep.unregSysmem

/-- The five init steps in program order. -/
def initOrder : List InitStep :=
  [InitStep.ummInit, InitStep.vdsoAlloc, InitStep.regPrivate,
   InitStep.regShared, InitStep.regSysmem]

/-- Label fail_vdso: destroy the shared umm. -/
def fail_vdso_undo : List UndoStep := [UndoStep.ummDestroy]

/-- Label fail_private: free the vdso allocation, then fall through to
fail_vdso. -/
def fail_private_undo : List UndoStep := UndoStep.vdsoFree :: fail_vdso_undo

/-- Label fail_shared: unregister the private device, then fall through to
fail_private. -/
def fail_shared_undo : List UndoStep := UndoStep.unregPrivate :: fail_private_undo

/-- Label fail_sysmem: unregister the shared device, then fall through to
fail_shared. -/
def fail_sysmem_undo : List UndoStep := UndoStep.unregShared :: fail_shared_undo

/-- steely_memdev_init with failure injection: fails s = some e means step
s fails with code e (for the vdso allocation the source itself maps the
NULL allocation to -ENOMEM). Returns the return code, the steps completed
in program order, and the undo actions executed, in execution order, before
the return. -/
def steely_memdev_init (fails : InitStep → Option Int) :
    Int × List InitStep × List UndoStep :=
  match fails InitStep.ummInit with
  | some e => (e, [], [])
  | none =>
    match fails InitStep.vdsoAlloc with
    | some _ => (-ENOMEM, [InitStep.ummInit], fail_vdso_undo)
    | none =>
      match fails InitStep.regPrivate with
      | some e => (e, [InitStep.ummInit, InitStep.vdsoAlloc], fail_private_undo)
      | none =>
        match fails InitStep.regShared with
        | some e =>
          (e, [InitStep.ummInit, InitStep.vdsoAlloc, InitStep.regPrivate],
           fail_shared_undo)
        | none =>
          match fails InitStep.regSysmem with
          | some e =>
            (e, [InitStep.ummInit, InitStep.vdsoAlloc, InitStep.regPrivate,
                 InitStep.regShared], fail_sysmem_undo)
          | none => (0, initOrder, [])

/-- steely_memdev_cleanup: the teardown actions in execution order. -/
def steely_memdev_cleanup : List UndoStep :=
  [UndoStep.unregSysmem, UndoStep.unregShared, UndoStep.unregPrivate,
   UndoStep.vdsoFree, UndoStep.ummDestroy]

/-- Cross-core spinlock state: the core currently holding it, if any. -/
structure Xnlock where
  owner : Option Nat
  deriving DecidableEq

/-- Modelled from the spec: the inline implementation ____xnlock_get lives
in the steely/lock.h header, which is not part of the source tree. Per the
spec, acquire obtains exclusive cross-core ownership, recording the owner
identity, and returns 0 on a fresh acquisition; re-acquiring on the owning
core is a caller error, modelled as returning a nonzero recursion flag
without changing the lock. -/
def ____xnlock_get (lock : Xnlock) (cpu : Nat) : Int × Xnlock :=
  if lock.owner = some cpu then (2, lock)
  else (0, { owner := some cpu })

/-- Modelled from the spec: the inline release relinquishes ownership. -/
def ____xnlock_put (lock : Xnlock) (cpu : Nat) : Xnlock :=
  { owner := none }

/-- ___xnlock_get (lock.c): the out-of-line acquire entry point, a direct
delegation to the inline implementation. -/
def ___xnlock_get (lock : Xnlock) (cpu : Nat) : Int × Xnlock :=
  ____xnlock_get lock cpu

/-- ___xnlock_put (lock.c): the out-of-line release entry point, a direct
delegation to the inline implementation. -/
def ___xnlock_put (lock : Xnlock) (cpu : Nat) : Xnlock :=
  ____xnlock_put lock cpu

/-- n mapping duplications in sequence (umm_vmopen n times). -/
def openN : Nat → SteelyUmm → SteelyUmm
  | 0, u => u
  | n + 1, u => openN n (umm_vmopen u)

/-- n mapping closes in sequence (umm_vmclose n times), returning the final
region state and the number of closes that executed the destructive
path. -/
def destroyN : Nat → SteelyUmm → SteelyUmm × Nat
  | 0, u => (u, 0)
  | n + 1, u =>
    let r := umm_vmclose u
    let rest := destroyN n r.1
    (rest.1, (if r.2 = [] then 0 else 1) + rest.2)

/-- The reference count of the region that the given minor resolves to (0
when none resolves). Statement helper. -/
def refcountOf (st : MemState) (minor : Nat) : Int :=
  match umm_from_fd st minor with
  | none => 0
  | some u => u.refcount

/-- The memory state with the refcount of the region the given minor
resolves to bumped by one, all else unchanged. Statement helper. -/
def bumpTarget (st : MemState) (minor : Nat) : MemState :=
  match st.processUmm with
  | none => st
  | some p =>
    if minor = UMM_PRIVATE then
      { st with processUmm := some { p with refcount := p.refcount + 1 } }
    else
      { st with kernelUmm :=
          { st.kernelUmm with refcount := st.kernelUmm.refcount + 1 } }

/-- A concrete region used by witnesses. -/
def sampleUmm : SteelyUmm :=
  { heap := { membase := 0, size := 4096, free := 4096 },
    refcount := 1, release := false }

/-- A memory state with no process context attached. -/
def noProcState : MemState :=
  { processUmm := none, kernelUmm := sampleUmm }

/-- A memory state with a process context attached. -/
def procState : MemState :=
  { processUmm := some sampleUmm, kernelUmm := sampleUmm }

/-- A concrete system heap used by the C8 theorems. -/
def sysHeapSample : Heap := { membase := 0, size := 65536, free := 32768 }

/-- n duplications change nothing but the refcount, which grows by n. -/
theorem openN_refcount (n : Nat) (u : SteelyUmm) :
    openN n u = { u with refcount := u.refcount + n } := by
  induction n generalizing u with
  | zero => simp [openN]
  | succ n ih =>
    simp only [openN, ih, umm_vmopen]
    congr 1
    push_cast
    ring

/-- One-step unfolding of destroyN. -/
theorem destroyN_succ (n : Nat) (u : SteelyUmm) :
    destroyN (n + 1) u =
      ((destroyN n (umm_vmclose u).1).1,
       (if (umm_vmclose u).2 = [] then 0 else 1) +
         (destroyN n (umm_vmclose u).1).2) := rfl

/-- n sequential closes of a region holding 1 + n references never reach
zero: no close executes the destructive path and one reference remains. -/
theorem destroyN_no_fire (n : Nat) (u : SteelyUmm) (h : u.refcount = 1 + n) :
    destroyN n u = ({ u with refcount := 1 }, 0) := by
  induction n generalizing u with
  | zero =>
    have h1 : u.refcount = 1 := by push_cast at h; omega
    cases u with
    | mk heap rc rel => simp_all [destroyN]
  | succ n ih =>
    have hne : u.refcount - 1 ≠ 0 := by push_cast at h; omega
    have hrec : ({ u with refcount := u.refcount - 1 } : SteelyUmm).refcount
        = 1 + (n : Int) := by push_cast at h ⊢; omega
    rw [destroyN_succ]
    simp only [umm_vmclose, steely_umm_destroy, if_neg hne]
    rw [ih _ hrec]
    simp

/-- n + 1 sequential closes of a region holding 1 + n references execute
the destructive path exactly once, at the close that reaches zero. -/
theorem destroyN_one_fire (n : Nat) (u : SteelyUmm)
    (h : u.refcount = 1 + n) :
    destroyN (n + 1) u = ({ u with refcount := 0 }, 1) := by
  induction n generalizing u with
  | zero =>
    have h0 : u.refcount - 1 = 0 := by push_cast at h; omega
    simp [destroyN, umm_vmclose, steely_umm_destroy, if_pos h0, h0]
  | succ n ih =>
    have hne : u.refcount - 1 ≠ 0 := by push_cast at h; omega
    have hrec : ({ u with refcount := u.refcount - 1 } : SteelyUmm).refcount
        = 1 + (n : Int) := by push_cast at h ⊢; omega
    rw [destroyN_succ]
    simp only [umm_vmclose, steely_umm_destroy, if_neg hne]
    rw [ih _ hrec]
    simp

/-- Below 2 ^ 32 - PAGE_SIZE the u32 truncation is inert and pageAlignU32
is the exact round-up. -/
theorem pageAlignU32_exact (size : Nat) (h : size ≤ 2 ^ 32 - 4096) :
    pageAlignU32 size = (size + 4095) / 4096 * 4096 := by
  have h32 : (2 : Nat) ^ 32 = 4294967296 := by norm_num
  simp only [pageAlignU32, PAGE_SIZE, h32]
  have hle : (size + 4095) / 4096 * 4096 ≤ size + 4095 :=
    Nat.div_mul_le_self _ _
  omega

/-- The aligned size is a PAGE_SIZE multiple at least the requested size
and less than one page above it, whenever it fits the u32 field. -/
theorem pageAlignU32_bounds (size : Nat) (h : size ≤ 2 ^ 32 - 4096) :
    size ≤ pageAlignU32 size ∧ pageAlignU32 size % 4096 = 0 ∧
      pageAlignU32 size < size + 4096 := by
  rw [pageAlignU32_exact size h]
  refine ⟨by omega, Nat.mul_mod_left _ _, by omega⟩

/-- C1: with no process context attached to the caller, no region resolves;
the stat path then fails with -ENODEV as the claim states, but the mmap
path does not — the source tests fd == NULL where umm == NULL was intended,
and since the dispatch layer always passes a live fd, the length check
dereferences the NULL region pointer instead of returning -ENODEV. -/
theorem C1_mmap_null_deref :
    (umm_mmap noProcState false UMM_PRIVATE 4096 0).1 =
      MmapOutcome.nullDeref ∧
    (umm_mmap noProcState false UMM_PRIVATE 4096 0).1 ≠
      MmapOutcome.err (-ENODEV) ∧
    stat_umm noProcState UMM_PRIVATE = Except.error (-ENODEV) :=
  ⟨rfl, by decide, rfl⟩

/-- C2: steely_umm_destroy decrements the reference count by exactly one;
exactly on the transition to zero it performs the one-time destructive path
— destroy the heap, return the block to the host, then invoke the release
callback when one is registered, in that order — and performs none of these
steps on any decrement that does not reach zero; moreover n + 1 releases
against a region holding n + 1 references execute the destructive path
exactly once. -/
theorem C2_zero_transition (u : SteelyUmm) :
    (steely_umm_destroy u).1.refcount = u.refcount - 1 ∧
    (steely_umm_destroy u).2 =
      (if u.refcount - 1 = 0 then
        [Effect.destroyHeap, Effect.vfreeBlock] ++
          (if u.release then [Effect.invokeRelease] else [])
       else []) ∧
    ∀ n : Nat, destroyN (n + 1) { u with refcount := (n : Int) + 1 } =
      ({ u with refcount := 0 }, 1) := by
  refine ⟨?_, ?_, ?_⟩
  · simp only [steely_umm_destroy]
    split <;> rfl
  · simp only [steely_umm_destroy]
    split <;> simp_all
  · intro n
    exact destroyN_one_fire n _ (by simp [add_comm])

/-- C3: a mapping-open whose requested length differs from the resolved
region's total size fails with -EINVAL and leaves the whole memory state —
hence the region's refcount — unchanged, whatever the bind outcome would
have been; with the exact length and a successful bind, the open succeeds
and the target refcount is incremented by exactly one. -/
theorem C3_length_check (st : MemState) (t : SteelyUmm) (minor badLen : Nat)
    (bindResult : Int) (ht : umm_from_fd st minor = some t)
    (hbad : badLen ≠ t.heap.size) :
    umm_mmap st false minor badLen bindResult =
      (MmapOutcome.err (-EINVAL), st) ∧
    (umm_mmap st false minor t.heap.size 0).1 = MmapOutcome.ok ∧
    refcountOf (umm_mmap st false minor t.heap.size 0).2 minor =
      refcountOf st minor + 1 := by
  cases hp : st.processUmm with
  | none => simp [umm_from_fd, hp] at ht
  | some p =>
    by_cases hm : minor = UMM_PRIVATE
    · simp [umm_from_fd, hp, hm] at ht
      subst ht
      refine ⟨?_, ?_, ?_⟩ <;>
        simp [umm_mmap, umm_from_fd, refcountOf, hp, hm, hbad]
    · simp [umm_from_fd, hp, hm] at ht
      subst ht
      refine ⟨?_, ?_, ?_⟩ <;>
        simp [umm_mmap, umm_from_fd, refcountOf, hp, hm, hbad]

/-- C3 witness: a mismatched length of 1 against the 4096-byte private
region fails with -EINVAL leaving the state unchanged, and the exact length
succeeds, bumping the refcount from 1 to 2. -/
theorem C3_length_check_witness :
    umm_mmap procState false 0 1 0 = (MmapOutcome.err (-EINVAL), procState) ∧
    (umm_mmap procState false 0 sampleUmm.heap.size 0).1 = MmapOutcome.ok ∧
    refcountOf (umm_mmap procState false 0 sampleUmm.heap.size 0).2 0 =
      refcountOf procState 0 + 1 :=
  C3_length_check procState sampleUmm 0 1 0 (by decide) (by decide)

/-- C4: whenever startup stops at a failing step, the undo actions executed
before the failure returns are exactly the completed steps, each undone by
its reversing action, in exact reverse order — and nothing is undone when
all five steps succeed; teardown (steely_memdev_cleanup) always runs the
five reversing actions in exact reverse order of the startup sequence. -/
theorem C4_init_unwind (fails : InitStep → Option Int) :
    (steely_memdev_init fails).2.2 =
      (if (steely_memdev_init fails).2.1 = initOrder then []
       else ((steely_memdev_init fails).2.1.map undoOf).reverse) ∧
    steely_memdev_cleanup = (initOrder.map undoOf).reverse := by
  constructor
  · unfold steely_memdev_init
    cases fails InitStep.ummInit with
    | some e => rfl
    | none =>
      cases fails InitStep.vdsoAlloc with
      | some e => rfl
      | none =>
        cases fails InitStep.regPrivate with
        | some e => rfl
        | none =>
          cases fails InitStep.regShared with
          | some e => rfl
          | none =>
            cases fails InitStep.regSysmem with
            | some e => rfl
            | none => rfl
  · rfl

/-- C5: when the delegated heap initialization fails during region
creation, the already-allocated backing block is returned to the host
(vfree, recorded in the effect trace ahead of the return) before create
reports failure, and the reported failure is -ENOMEM (OutOfMemory). -/
theorem C5_heap_init_failure (size : Nat) (release : Bool) :
    steely_umm_init true false size release =
      (Except.error (-ENOMEM),
       [HostEffect.vmallocZeroed (pageAlignU32 size),
        HostEffect.vfreeBlock]) := rfl

/-- C6 counterexample: at requested size 4294967295 — a valid u32 — the
store of PAGE_ALIGN back into the u32 size variable truncates the rounded
value 4294967296 to 0, so the block requested from the host has size 0,
which is below the requested size and therefore not the size rounded up to
page granularity. -/
theorem C6_truncation_counterexample :
    (steely_umm_init true true 4294967295 false).2 =
      [HostEffect.vmallocZeroed 0] ∧ ¬ (4294967295 ≤ (0 : Nat)) := by
  decide

/-- C6 amended: for every requested size at most 2 ^ 32 - PAGE_SIZE (so
that the rounded size still fits the u32 size field), create rounds the
size up to host page granularity — the aligned size is a PAGE_SIZE
multiple, at least the requested size and less than one page above it —
requests a zero-filled block of exactly that aligned size from the host,
initializes the delegated heap over it and sets the refcount to exactly 1;
if the host block allocation fails, create fails with -ENOMEM. -/
theorem C6_create_rounds_and_refcount (size : Nat) (release : Bool)
    (h : size ≤ 2 ^ 32 - PAGE_SIZE) :
    steely_umm_init true true size release =
      (Except.ok { heap := { membase := 0, size := pageAlignU32 size,
                             free := pageAlignU32 size },
                   refcount := 1, release := release },
       [HostEffect.vmallocZeroed (pageAlignU32 size)]) ∧
    size ≤ pageAlignU32 size ∧
    pageAlignU32 size % PAGE_SIZE = 0 ∧
    pageAlignU32 size < size + PAGE_SIZE ∧
    steely_umm_init false true size release =
      (Except.error (-ENOMEM),
       [HostEffect.vmallocZeroed (pageAlignU32 size)]) := by
  have hb := pageAlignU32_bounds size (by simpa [PAGE_SIZE] using h)
  simp only [PAGE_SIZE]
  exact ⟨rfl, hb.1, hb.2.1, hb.2.2, rfl⟩

/-- C6 witness: the amended theorem at size 5000 with a release callback;
the aligned size is 8192. -/
theorem C6_create_witness :
    steely_umm_init true true 5000 true =
      (Except.ok { heap := { membase := 0, size := pageAlignU32 5000,
                             free := pageAlignU32 5000 },
                   refcount := 1, release := true },
       [HostEffect.vmallocZeroed (pageAlignU32 5000)]) ∧
    5000 ≤ pageAlignU32 5000 ∧
    pageAlignU32 5000 % PAGE_SIZE = 0 ∧
    pageAlignU32 5000 < 5000 + PAGE_SIZE ∧
    steely_umm_init false true 5000 true =
      (Except.error (-ENOMEM),
       [HostEffect.vmallocZeroed (pageAlignU32 5000)]) :=
  C6_create_rounds_and_refcount 5000 true (by decide)

/-- C7: starting from a fresh region with refcount 1, any number n of
session opens or duplications — each a never-failing increment by exactly
one — followed by n closes returns the region to exactly its initial state
with refcount 1, and no close executes the destructive path; close order is
immaterial, every close being the identical decrement on the same
region. -/
theorem C7_open_close_balance (n : Nat) (u : SteelyUmm) :
    destroyN n (openN n { u with refcount := 1 }) =
      ({ u with refcount := 1 }, 0) ∧
    ∀ v : SteelyUmm, umm_vmopen v = { v with refcount := v.refcount + 1 } := by
  constructor
  · rw [openN_refcount]
    exact destroyN_no_fire n _ (by simp [add_comm])
  · intro v
    rfl

/-- C8 counterexample: an allocation request on the SystemRegion device can
only arrive as an ioctl with a code other than the stat request, and
do_sysmem_ioctls rejects it with -EINVAL (InvalidArgument), not -EACCES
(PermissionDenied) as the claim states. -/
theorem C8_allocation_einval :
    do_sysmem_ioctls sysHeapSample (IoctlRequest.other 0) =
      Except.error (-EINVAL) ∧
    do_sysmem_ioctls sysHeapSample (IoctlRequest.other 0) ≠
      Except.error (-EACCES) := by
  refine ⟨rfl, fun hcontra => ?_⟩
  have h2 : (-EINVAL : Int) = -EACCES := Except.error.inj hcontra
  exact absurd h2 (by decide)

/-- C8 amended: on the SystemRegion device every stat query succeeds and
returns the two-field record of size and free; every write-mode open
request fails with -EACCES (PermissionDenied) while a read-only open
succeeds; the device protocol has no allocation request — every ioctl other
than the stat query fails with -EINVAL (InvalidArgument); and the driver
registers no mapping handler at all, so the device offers no mapping entry
point (a writable mapping is in any case blocked at open with -EACCES). -/
theorem C8_sysmem_behaviour (h : Heap) (oflags code : Nat) :
    do_sysmem_ioctls h IoctlRequest.stat =
      Except.ok { size := h.size, free := h.free } ∧
    sysmem_open oflags =
      (if oflags &&& O_ACCMODE = O_RDONLY then 0 else -EACCES) ∧
    do_sysmem_ioctls h (IoctlRequest.other code) = Except.error (-EINVAL) ∧
    sysmem_has_mmap_handler = false := by
  refine ⟨rfl, ?_, rfl, rfl⟩
  by_cases hc : oflags &&& O_ACCMODE = O_RDONLY <;> simp [sysmem_open, hc]

/-- C9: on every failure path of umm_mmap — region resolution failure
(which under a live fd ends in the NULL dereference rather than -ENODEV,
still touching no refcount), length mismatch, or failure of the host bind
step — the memory state and hence every region's refcount is unchanged;
exactly on success the single increment of the target region's refcount is
performed, everything else unchanged. -/
theorem C9_refcount_frame (st : MemState) (fdNull : Bool)
    (minor vmaLen : Nat) (bindResult : Int) :
    ((umm_mmap st fdNull minor vmaLen bindResult).1 = MmapOutcome.ok ∧
      (umm_mmap st fdNull minor vmaLen bindResult).2 = bumpTarget st minor) ∨
    ((umm_mmap st fdNull minor vmaLen bindResult).1 ≠ MmapOutcome.ok ∧
      (umm_mmap st fdNull minor vmaLen bindResult).2 = st) := by
  cases hp : st.processUmm with
  | none =>
    cases fdNull <;> simp [umm_mmap, umm_from_fd, hp]
  | some p =>
    cases fdNull with
    | true =>
      by_cases hm : minor = UMM_PRIVATE <;>
        simp [umm_mmap, umm_from_fd, hp, hm]
    | false =>
      by_cases hm : minor = UMM_PRIVATE
      · by_cases hl : vmaLen = p.heap.size
        · by_cases hb : bindResult = 0
          · left
            simp [umm_mmap, umm_from_fd, bumpTarget, hp, hm, hl, hb]
          · right
            simp [umm_mmap, umm_from_fd, hp, hm, hl, hb]
        · right
          simp [umm_mmap, umm_from_fd, hp, hm, hl]
      · by_cases hl : vmaLen = st.kernelUmm.heap.size
        · by_cases hb : bindResult = 0
          · left
            simp [umm_mmap, umm_from_fd, bumpTarget, hp, hm, hl, hb]
          · right
            simp [umm_mmap, umm_from_fd, hp, hm, hl, hb]
        · right
          simp [umm_mmap, umm_from_fd, hp, hm, hl]

/-- C10: the out-of-line lock entry points of lock.c are pure delegations
and behave identically to the inline implementations — for every lock state
and core, ___xnlock_get returns exactly the value and lock state that
____xnlock_get returns, and ___xnlock_put has exactly the effect of
____xnlock_put. -/
theorem C10_outofline_eq_inline (lock : Xnlock) (cpu : Nat) :
    ___xnlock_get lock cpu = ____xnlock_get lock cpu ∧
    ___xnlock_put lock cpu = ____xnlock_put lock cpu :=
  ⟨rfl, rfl⟩

end Steely
